import Mathlib

set_option linter.unusedVariables false

/-!
Verification development for the job filtering and deduplication pipeline of
`src/filters/job_filter.py`.

The Python classes are embedded shallowly:
* a job dict becomes the `Job` structure, with absent string fields modelled
  as `""` (the `dict.get` default) and `experience_level` kept optional
  because the code tests for the key's presence;
* each filter class becomes a function from its constructor state and the
  input list to the output list (the classes keep no other state apart from
  the statistics dictionary, which is threaded explicitly where a claim
  needs it);
* floats (similarity scores) are modelled as rationals, datetimes as integer
  hour counts with `now` passed explicitly;
* external absolute-date parsers (dateutil / strptime) are abstracted as an
  explicit function parameter.

All text handling is restricted to ASCII, which covers every string constant
in the source.
-/

/-- Python whitespace class (the regex class used by the source), restricted
to ASCII: space, tab, newline, carriage return, vertical tab, form feed. -/
def isPySpace (c : Char) : Bool :=
  c = ' ' || c = '\t' || c = '\n' || c = '\r' || c.toNat = 11 || c.toNat = 12

/-- Python word-character regex class restricted to ASCII: letters, digits
and underscore. -/
def isWordChar (c : Char) : Bool :=
  c.isAlphanum || c = '_'

/-- Python `str.strip()`: drop leading and trailing whitespace. -/
def pyStrip (s : String) : String :=
  ⟨((s.data.dropWhile isPySpace).reverse.dropWhile isPySpace).reverse⟩

/-- Python `str.lower()` restricted to ASCII (every string constant in the
source is ASCII). -/
def pyToLower (s : String) : String :=
  ⟨s.data.map Char.toLower⟩

/-- Replace each maximal whitespace run by a single space: the effect of
`re.sub` with a one-or-more-whitespace pattern and a space replacement.
The flag records whether the previous character was whitespace. -/
def collapseWsAux : Bool → List Char → List Char
  | _, [] => []
  | afterWs, c :: cs =>
    if isPySpace c then
      if afterWs then collapseWsAux true cs
      else ' ' :: collapseWsAux true cs
    else c :: collapseWsAux false cs

def collapseWs (s : String) : String :=
  ⟨collapseWsAux false s.data⟩

/-- Python substring containment (`needle in hay`) on character lists. -/
def listContainsSub (needle : List Char) : List Char → Bool
  | [] => needle.isEmpty
  | c :: t => needle.isPrefixOf (c :: t) || listContainsSub needle t

/-- Python substring containment on strings. -/
def strContains (hay needle : String) : Bool :=
  listContainsSub needle.data hay.data

/-- Numeric value of a run of decimal digits. -/
def digitsToNat (l : List Char) : Nat :=
  l.foldl (fun a c => a * 10 + (c.toNat - 48)) 0

/-- The first maximal run of decimal digits in the character list, as a
number (`re.findall` of a digit-run pattern, first match), or `none` when no
digit occurs. -/
def firstNumber : List Char → Option Nat
  | [] => none
  | c :: cs =>
    if c.isDigit then some (digitsToNat (c :: cs.takeWhile Char.isDigit))
    else firstNumber cs

/-- Python truthiness of an optional integer field (None and 0 are falsy). -/
def truthyNat : Option Nat → Bool
  | none => false
  | some n => n != 0

/-- Python truthiness of an optional string-list attribute (None and the
empty list are falsy). -/
def truthyStrList : Option (List String) → Bool
  | none => false
  | some l => !l.isEmpty

/-- A job record: the dict fields read by the filters. -/
structure Job where
  title : String
  company : String
  location : String
  description : String
  salary : String
  posted_date : String
  job_type : String
  experience_level : Option String
deriving DecidableEq

/-- A record with every field absent. -/
def jobBlank : Job :=
  ⟨"", "", "", "", "", "", "", none⟩

namespace DuplicateRemover

/-- Embeds `_normalize_text`: lowercase, strip, collapse whitespace, drop
punctuation (characters that are neither word characters nor whitespace),
then erase the corporate-suffix words `inc|corp|ltd|llc|co` as whole words
(word-boundary delimited, which on the punctuation-free string means
space-delimited tokens; the matched word is removed, surrounding spaces
stay). -/
def splitOnSpaceAux (acc : List Char) : List Char → List (List Char)
  | [] => [acc.reverse]
  | c :: cs =>
    if c = ' ' then acc.reverse :: splitOnSpaceAux [] cs
    else splitOnSpaceAux (c :: acc) cs

/-- Split on every single space character (`str.split(' ')`,
empty pieces kept). -/
def splitOnSpace (l : List Char) : List (List Char) :=
  splitOnSpaceAux [] l

/-- Rejoin pieces with single spaces (`' '.join`). -/
def joinSpace : List (List Char) → List Char
  | [] => []
  | [t] => t
  | t :: ts => t ++ ' ' :: joinSpace ts

def normalizeText (text : String) : String :=
  if text = "" || text = "N/A" then ""
  else
    let t := collapseWs (pyStrip (pyToLower text))
    let t := t.data.filter (fun c => isWordChar c || isPySpace c)
    let toks := splitOnSpace t
    ⟨joinSpace (toks.map fun w =>
      if (⟨w⟩ : String) = "inc" || (⟨w⟩ : String) = "corp" || (⟨w⟩ : String) = "ltd" ||
          (⟨w⟩ : String) = "llc" || (⟨w⟩ : String) = "co" then [] else w)⟩

/-- Embeds `_create_job_signature`: the md5 hexdigest of
`normalized(title)|normalized(company)|normalized(location)`. The hash is
modelled by the hashed text itself; md5 collisions are outside the model. -/
def createJobSignature (j : Job) : String :=
  normalizeText j.title ++ "|" ++ normalizeText j.company ++ "|" ++ normalizeText j.location

/-- Python `str.split()` with no argument: the maximal runs of
non-whitespace characters. -/
def pySplitAux (acc : List Char) : List Char → List (List Char)
  | [] => if acc.isEmpty then [] else [acc.reverse]
  | c :: cs =>
    if isPySpace c then
      if acc.isEmpty then pySplitAux [] cs else acc.reverse :: pySplitAux [] cs
    else pySplitAux (c :: acc) cs

def pySplit (s : String) : List String :=
  (pySplitAux [] s.data).map fun l => ⟨l⟩

/-- The word set used by `_calculate_similarity`: the words of
`normalized(title) ++ " " ++ normalized(company)`. -/
def getWords (j : Job) : Finset String :=
  (pySplit (normalizeText j.title ++ " " ++ normalizeText j.company)).toFinset

/-- Embeds `_calculate_similarity`: Jaccard similarity of the two word sets, with
the float result modelled as a rational. -/
def calculateSimilarity (j1 j2 : Job) : ℚ :=
  let words1 := getWords j1
  let words2 := getWords j2
  if words1 = ∅ ∧ words2 = ∅ then 1
  else if words1 = ∅ ∨ words2 = ∅ then 0
  else
    let inter := (words1 ∩ words2).card
    let union := (words1 ∪ words2).card
    if 0 < union then (inter : ℚ) / union else 0

/-- The loop of `DuplicateRemover.filter`: `uniq` is the accumulated
`unique_jobs` list, `seen` the `seen_signatures` set (a job whose exact
signature was seen is skipped outright; an unseen job is scanned against
every kept job and appended — registering its signature — only when every
similarity is below the threshold). -/
def filterAux (threshold : ℚ) : List Job → List Job → List String → List Job
  | [], uniq, _ => uniq
  | j :: rest, uniq, seen =>
    let signature := createJobSignature j
    if signature ∈ seen then filterAux threshold rest uniq seen
    else if uniq.any (fun e => decide (threshold ≤ calculateSimilarity j e)) then
      filterAux threshold rest uniq seen
    else filterAux threshold rest (uniq ++ [j]) (signature :: seen)

/-- Embeds `DuplicateRemover.filter`. -/
def filter (threshold : ℚ) (jobs : List Job) : List Job :=
  if jobs = [] then jobs else filterAux threshold jobs [] []

end DuplicateRemover

namespace ExperienceFilter

def entryKeywords : List String :=
  ["junior", "trainee", "intern", "entry", "graduate", "fresher",
   "associate", "beginner", "apprentice", "0-1 year", "0-2 year",
   "new grad", "recent graduate", "jr.", "jr "]

def seniorKeywords : List String :=
  ["senior", "sr.", "sr ", "lead", "principal", "architect", "manager",
   "head", "director", "chief", "expert", "5+ year", "7+ year",
   "team lead", "tech lead", "technical lead", "staff", "principal"]

def midKeywords : List String :=
  ["mid", "intermediate", "regular", "2-5 year", "3-6 year",
   "experienced", "specialist", "developer ii", "engineer ii"]

/-- Embeds `_detect_experience_level` (the company argument is accepted and unused,
exactly as in the source). -/
def detectExperienceLevel (job_title : String) (company : String) : String :=
  if job_title = "" then "mid"
  else
    let title_lower := pyToLower job_title
    if entryKeywords.any (fun k => strContains title_lower k) then "entry"
    else if seniorKeywords.any (fun k => strContains title_lower k) then "senior"
    else if midKeywords.any (fun k => strContains title_lower k) then "mid"
    else "mid"

/-- The in-place enrichment `ExperienceFilter.filter` performs on each job:
when the `experience_level` key is absent, stamp the detected level; an
existing value is left untouched. -/
def enrich (j : Job) : Job :=
  match j.experience_level with
  | some _ => j
  | none => { j with experience_level := some (detectExperienceLevel j.title j.company) }

/-- Embeds `ExperienceFilter.filter`; `allowed_levels` is the constructor state
(already lowercased, `[]` for a falsy argument). -/
def filter (allowed_levels : List String) (jobs : List Job) : List Job :=
  if allowed_levels = [] then jobs
  else (jobs.map enrich).filter fun j =>
    allowed_levels.contains (pyToLower (j.experience_level.getD ""))

end ExperienceFilter

namespace CompanyFilter

/-- The per-record test of `CompanyFilter.filter`. `include_companies` is
`none` when the constructor argument was falsy, otherwise the lowercased,
stripped list; `exclude_companies` is `[]` when falsy. The exclude list is
checked first; any substring match drops the record. -/
def keep (include_companies : Option (List String)) (exclude_companies : List String)
    (j : Job) : Bool :=
  let company_name := pyStrip (pyToLower j.company)
  if exclude_companies.any (fun e => strContains company_name e) then false
  else if truthyStrList include_companies &&
      !(include_companies.getD []).any (fun i => strContains company_name i) then false
  else true

/-- Embeds `CompanyFilter.filter`. -/
def filter (include_companies : Option (List String)) (exclude_companies : List String)
    (jobs : List Job) : List Job :=
  if !truthyStrList include_companies && exclude_companies.isEmpty then jobs
  else jobs.filter (keep include_companies exclude_companies)

end CompanyFilter

namespace KeywordFilter

/-- The per-record test of `KeywordFilter.filter` over
`title + " " + description`, lowercased. -/
def keep (required_keywords excluded_keywords : List String) (j : Job) : Bool :=
  let content := pyToLower j.title ++ " " ++ pyToLower j.description
  if !required_keywords.isEmpty &&
      !required_keywords.any (fun k => strContains content k) then false
  else if excluded_keywords.any (fun k => strContains content k) then false
  else true

/-- Embeds `KeywordFilter.filter`. -/
def filter (required_keywords excluded_keywords : List String) (jobs : List Job) : List Job :=
  if required_keywords.isEmpty && excluded_keywords.isEmpty then jobs
  else jobs.filter (keep required_keywords excluded_keywords)

end KeywordFilter

namespace SalaryFilter

/-- Embeds `_extract_salary_numbers`: drop `$` and `,`, expand `k`/`K` to `000`,
then take the first run of digits. -/
def extractSalaryNumbers (salary_str : String) : Option Nat :=
  if salary_str = "" || salary_str = "N/A" then none
  else
    let cleaned := salary_str.data.flatMap fun c =>
      if c = '$' || c = ',' then []
      else if c = 'k' || c = 'K' then ['0', '0', '0']
      else [c]
    firstNumber cleaned

/-- The per-record test of `SalaryFilter.filter`: an unparseable salary is
always kept; otherwise the number must not be below a truthy `min_salary`
nor above a truthy `max_salary`. -/
def keep (min_salary max_salary : Option Nat) (j : Job) : Bool :=
  match extractSalaryNumbers j.salary with
  | none => true
  | some salary_num =>
    if truthyNat min_salary && decide (salary_num < min_salary.getD 0) then false
    else if truthyNat max_salary && decide (max_salary.getD 0 < salary_num) then false
    else true

/-- Embeds `SalaryFilter.filter`. -/
def filter (min_salary max_salary : Option Nat) (jobs : List Job) : List Job :=
  if !truthyNat min_salary && !truthyNat max_salary then jobs
  else jobs.filter (keep min_salary max_salary)

end SalaryFilter

namespace JobTypeFilter

/-- The per-record test of `JobTypeFilter.filter`. -/
def keep (remote_only full_time_only : Bool) (j : Job) : Bool :=
  let location := pyToLower j.location
  let job_type := pyToLower j.job_type
  let title := pyToLower j.title
  if remote_only && !strContains location "remote" && !strContains job_type "remote" then false
  else if full_time_only && !strContains job_type "full" && !strContains title "full-time" &&
      !job_type.isEmpty && strContains job_type "part" then false
  else true

/-- Embeds `JobTypeFilter.filter`. -/
def filter (remote_only full_time_only : Bool) (jobs : List Job) : List Job :=
  if !remote_only && !full_time_only then jobs
  else jobs.filter (keep remote_only full_time_only)

end JobTypeFilter

namespace DateFilter

/-- Embeds `_parse_posting_date`. Time is modelled in integer hours, with `now`
(`datetime.now()`) passed explicitly. `absParse` abstracts the external
absolute-date parsers applied after the relative tiers fail — the
dateutil general parse followed by the fixed strptime formats — yielding
the parsed time in hours or `none` when every absolute format fails.
A relative tier that finds its unit word but no digits falls through to the
later tiers, as in the source. -/
def parsePostingDate (absParse : String → Option Int) (now : Int) (date_str : String) :
    Option Int :=
  if date_str = "" || date_str = "N/A" then none
  else
    let s := pyToLower (pyStrip date_str)
    let rel : Option Int :=
      if strContains s "ago" then
        if strContains s "hour" then (firstNumber s.data).map fun n => now - (n : Int)
        else if strContains s "day" then (firstNumber s.data).map fun n => now - 24 * (n : Int)
        else if strContains s "week" then (firstNumber s.data).map fun n => now - 24 * 7 * (n : Int)
        else if strContains s "month" then (firstNumber s.data).map fun n => now - 24 * 30 * (n : Int)
        else none
      else none
    match rel with
    | some d => some d
    | none =>
      if strContains s "today" then some now
      else if strContains s "yesterday" then some (now - 24)
      else absParse s

/-- Embeds `_is_within_time_filter`: age in hours at most `max_age_hours`. -/
def isWithinTimeFilter (max_age_hours : Int) (now posted_date : Int) : Bool :=
  decide (now - posted_date ≤ max_age_hours)

/-- The per-record test of `DateFilter.filter`: an unparseable date is
always kept. -/
def keep (absParse : String → Option Int) (max_age_hours : Int) (now : Int) (j : Job) : Bool :=
  match parsePostingDate absParse now j.posted_date with
  | none => true
  | some d => isWithinTimeFilter max_age_hours now d

/-- Embeds `DateFilter.filter`: unlike the other stages, there is no unconfigured
pass-through branch — the age criterion always applies. -/
def filter (absParse : String → Option Int) (max_age_hours : Int) (now : Int)
    (jobs : List Job) : List Job :=
  jobs.filter (keep absParse max_age_hours now)

end DateFilter

namespace LocationFilter

/-- One alternation step of a word-boundary regex substitution: the first
alternative that is a prefix of `s` and is followed by a non-word character
(or the end of the string) is removed, yielding the rest of `s`. -/
def findAlt (alts : List (List Char)) (s : List Char) : Option (List Char) :=
  match alts with
  | [] => none
  | p :: ps =>
    if !p.isEmpty && p.isPrefixOf s &&
        (match s.drop p.length with
         | [] => true
         | c :: _ => !isWordChar c) then
      some (s.drop p.length)
    else findAlt ps s

/-- Embeds `re.sub` for a pattern of word-boundary-delimited alternatives and a
fixed replacement, scanning left to right and resuming after each match;
`prevWord` records whether the previous character is a word character (the
left boundary test). The fuel, set to the string length, bounds the
recursion; every alternative consumes at least one character, so the fuel
never runs out. -/
def reSubWordAux (alts : List (List Char)) (repl : List Char) :
    Nat → Bool → List Char → List Char
  | 0, _, s => s
  | _ + 1, _, [] => []
  | fuel + 1, prevWord, c :: cs =>
    if !prevWord then
      match findAlt alts (c :: cs) with
      | some rest => repl ++ reSubWordAux alts repl fuel true rest
      | none => c :: reSubWordAux alts repl fuel (isWordChar c) cs
    else c :: reSubWordAux alts repl fuel (isWordChar c) cs

def reSubWord (alts : List String) (repl : String) (s : String) : String :=
  ⟨reSubWordAux (alts.map String.data) repl.data s.data.length false s.data⟩

/-- The separator substitution (comma, hyphen, parentheses to space). -/
def replSeparators (s : String) : String :=
  ⟨s.data.map fun c => if c = ',' || c = '-' || c = '(' || c = ')' then ' ' else c⟩

/-- Embeds `_normalize_location`. -/
def normalizeLocation (location : String) : String :=
  if location = "" || location = "N/A" then ""
  else
    let l := pyStrip (pyToLower location)
    let l := reSubWord ["usa", "us", "united states"] "" l
    let l := reSubWord ["ca", "california"] "california" l
    let l := reSubWord ["ny", "new york"] "new york" l
    let l := reSubWord ["fl", "florida"] "florida" l
    let l := reSubWord ["tx", "texas"] "texas" l
    let l := replSeparators l
    pyStrip (collapseWs l)

def remoteKeywords : List String :=
  ["remote", "work from home", "wfh", "telecommute",
   "distributed", "anywhere", "virtual", "home-based"]

/-- Embeds `_is_remote_job`. -/
def isRemoteJob (location : String) : Bool :=
  if location = "" then false
  else remoteKeywords.any fun k => strContains (pyToLower location) k

/-- Embeds `_location_matches`. -/
def locationMatches (exact_match : Bool) (job_location preferred_location : String) : Bool :=
  if job_location = "" || preferred_location = "" then false
  else
    let job_loc := normalizeLocation job_location
    let pref_loc := normalizeLocation preferred_location
    if exact_match then job_loc == pref_loc
    else strContains job_loc pref_loc || strContains pref_loc job_loc

/-- The per-record test of `LocationFilter.filter`: remote jobs auto-pass
when allowed, then the exclusion list, then the preference list. -/
def keep (preferred_locations : Option (List String)) (excluded_locations : List String)
    (allow_remote exact_match : Bool) (j : Job) : Bool :=
  if isRemoteJob j.location && allow_remote then true
  else if excluded_locations.any (fun e => locationMatches exact_match j.location e) then false
  else if truthyStrList preferred_locations then
    (preferred_locations.getD []).any fun p => locationMatches exact_match j.location p
  else true

/-- Embeds `LocationFilter.filter`. -/
def filter (preferred_locations : Option (List String)) (excluded_locations : List String)
    (allow_remote exact_match : Bool) (jobs : List Job) : List Job :=
  if !truthyStrList preferred_locations && excluded_locations.isEmpty then jobs
  else jobs.filter (keep preferred_locations excluded_locations allow_remote exact_match)

end LocationFilter

/-- The configuration dict of `MainJobFilter`: an absent or falsy key is the
default value of its field. -/
structure FilterConfig where
  experience_levels : List String
  include_companies : List String
  exclude_companies : List String
  keywords : List String
  exclude_keywords : List String
  max_age_days : Nat
  min_salary : Option Nat
  max_salary : Option Nat
  remote_only : Bool
  full_time_only : Bool
deriving DecidableEq

/-- The empty configuration dict. -/
def emptyConfig : FilterConfig :=
  ⟨[], [], [], [], [], 0, none, none, false, false⟩

/-- The `_stats` dictionary of `MainJobFilter` (its eight counters, all
initialized to zero by the constructor). -/
structure MainStats where
  original_count : Nat
  after_experience_filter : Nat
  after_company_filter : Nat
  after_location_filter : Nat
  after_keyword_filter : Nat
  after_date_filter : Nat
  after_salary_filter : Nat
  final_count : Nat
deriving DecidableEq

def initStats : MainStats :=
  ⟨0, 0, 0, 0, 0, 0, 0, 0⟩

namespace MainJobFilter

/-- The experience step of `MainJobFilter.filter`: applied only when the
`experience_levels` key is truthy. -/
def expStage (cfg : FilterConfig) (fj : List Job) : List Job :=
  if !cfg.experience_levels.isEmpty then ExperienceFilter.filter cfg.experience_levels fj
  else fj

/-- The company step: the raw config lists are handed to the constructor,
which turns a falsy include list into None. -/
def companyStage (cfg : FilterConfig) (fj : List Job) : List Job :=
  if !cfg.include_companies.isEmpty || !cfg.exclude_companies.isEmpty then
    CompanyFilter.filter
      (if cfg.include_companies.isEmpty then none else some cfg.include_companies)
      cfg.exclude_companies fj
  else fj

/-- The keyword step. -/
def keywordStage (cfg : FilterConfig) (fj : List Job) : List Job :=
  if !cfg.keywords.isEmpty || !cfg.exclude_keywords.isEmpty then
    KeywordFilter.filter cfg.keywords cfg.exclude_keywords fj
  else fj

/-- The date step: `max_age_days` is converted to hours. -/
def dateStage (cfg : FilterConfig) (absParse : String → Option Int) (now : Int)
    (fj : List Job) : List Job :=
  if cfg.max_age_days != 0 then
    DateFilter.filter absParse ((cfg.max_age_days : Int) * 24) now fj
  else fj

/-- The salary step. -/
def salaryStage (cfg : FilterConfig) (fj : List Job) : List Job :=
  if truthyNat cfg.min_salary || truthyNat cfg.max_salary then
    SalaryFilter.filter cfg.min_salary cfg.max_salary fj
  else fj

/-- The job-type step (it updates no counter in the source). -/
def jobTypeStage (cfg : FilterConfig) (fj : List Job) : List Job :=
  if cfg.remote_only || cfg.full_time_only then
    JobTypeFilter.filter cfg.remote_only cfg.full_time_only fj
  else fj

/-- Embeds `MainJobFilter.filter`, with the instance's `_stats` dictionary threaded
explicitly: each stage counter is written only on the branch that applies
its stage, `original_count` and `final_count` are written on every call, and
nothing resets the remaining counters. `MainJobFilter.filter_jobs(jobs, cfg)`
is the same function called with the replacement `cfg` and the stats the
instance accumulated so far. -/
def filterWithStats (cfg : FilterConfig) (absParse : String → Option Int) (now : Int)
    (jobs : List Job) (stats : MainStats) : List Job × MainStats :=
  let fj1 := expStage cfg jobs
  let fj2 := companyStage cfg fj1
  let fj3 := keywordStage cfg fj2
  let fj4 := dateStage cfg absParse now fj3
  let fj5 := salaryStage cfg fj4
  let fj6 := jobTypeStage cfg fj5
  let stats := { stats with original_count := jobs.length }
  let stats := if !cfg.experience_levels.isEmpty then
      { stats with after_experience_filter := fj1.length } else stats
  let stats := if !cfg.include_companies.isEmpty || !cfg.exclude_companies.isEmpty then
      { stats with after_company_filter := fj2.length } else stats
  let stats := if !cfg.keywords.isEmpty || !cfg.exclude_keywords.isEmpty then
      { stats with after_keyword_filter := fj3.length } else stats
  let stats := if cfg.max_age_days != 0 then
      { stats with after_date_filter := fj4.length } else stats
  let stats := if truthyNat cfg.min_salary || truthyNat cfg.max_salary then
      { stats with after_salary_filter := fj5.length } else stats
  let stats := { stats with final_count := fj6.length }
  (fj6, stats)

end MainJobFilter

/-! ## Helper lemmas -/

theorem enrich_stamped (j : Job) :
    ∃ s, (ExperienceFilter.enrich j).experience_level = some s := by
  unfold ExperienceFilter.enrich
  cases h : j.experience_level with
  | some s => exact ⟨s, by simp [h]⟩
  | none => exact ⟨_, rfl⟩

theorem enrich_enrich (j : Job) :
    ExperienceFilter.enrich (ExperienceFilter.enrich j) = ExperienceFilter.enrich j := by
  cases h : j.experience_level <;>
    simp [ExperienceFilter.enrich, h]

/-! ## Claims -/

/-- C4: the experience-level classifier checks the entry, senior and mid
keyword sets on the lowercased title in that fixed order, the first set with
a substring match wins, and the default is mid; concretely
"Junior Software Engineer" is entry, "Senior Backend Lead" is senior,
"Software Engineer II" is mid, and a title with both an entry and a senior
keyword ("Senior Intern") is entry. -/
theorem claim4_experience_classifier_order :
    (∀ t c, ExperienceFilter.entryKeywords.any (fun k => strContains (pyToLower t) k) = true →
      ExperienceFilter.detectExperienceLevel t c = "entry") ∧
    (∀ t c, ExperienceFilter.entryKeywords.any (fun k => strContains (pyToLower t) k) = false →
      ExperienceFilter.seniorKeywords.any (fun k => strContains (pyToLower t) k) = true →
      ExperienceFilter.detectExperienceLevel t c = "senior") ∧
    (∀ t c, ExperienceFilter.entryKeywords.any (fun k => strContains (pyToLower t) k) = false →
      ExperienceFilter.seniorKeywords.any (fun k => strContains (pyToLower t) k) = false →
      ExperienceFilter.detectExperienceLevel t c = "mid") ∧
    ExperienceFilter.detectExperienceLevel "Junior Software Engineer" "" = "entry" ∧
    ExperienceFilter.detectExperienceLevel "Senior Backend Lead" "" = "senior" ∧
    ExperienceFilter.detectExperienceLevel "Software Engineer II" "" = "mid" ∧
    ExperienceFilter.detectExperienceLevel "Senior Intern" "" = "entry" := by
  refine ⟨?_, ?_, ?_, by decide, by decide, by decide, by decide⟩
  · intro t c h
    by_cases ht : t = ""
    · rw [ht] at h; exact absurd h (by decide)
    · simp [ExperienceFilter.detectExperienceLevel, ht, h]
  · intro t c he hs
    by_cases ht : t = ""
    · rw [ht] at hs; exact absurd hs (by decide)
    · simp [ExperienceFilter.detectExperienceLevel, ht, he, hs]
  · intro t c he hs
    by_cases ht : t = ""
    · simp [ExperienceFilter.detectExperienceLevel, ht]
    · simp [ExperienceFilter.detectExperienceLevel, ht, he, hs]

/-- Witness for C4 at a concrete title: "Lead Dev" matches no entry keyword
and the senior keyword "lead". -/
theorem claim4_witness :
    ExperienceFilter.detectExperienceLevel "Lead Dev" "" = "senior" :=
  claim4_experience_classifier_order.2.1 "Lead Dev" "" (by decide) (by decide)

/-- C5: SalaryFilter keeps every record whose salary does not parse to a
number (absent, "N/A", or no digits after cleaning), and drops every record
whose extracted number is below a configured (truthy) minimum; concretely,
with a 90000 minimum, "$80,000" is dropped and "N/A" is kept. -/
theorem claim5_salary_inclusive_and_min :
    (∀ min_salary max_salary jobs (j : Job), j ∈ jobs →
      SalaryFilter.extractSalaryNumbers j.salary = none →
      j ∈ SalaryFilter.filter min_salary max_salary jobs) ∧
    (∀ m max_salary jobs (j : Job) n,
      SalaryFilter.extractSalaryNumbers j.salary = some n → n < m →
      j ∉ SalaryFilter.filter (some m) max_salary jobs) ∧
    SalaryFilter.filter (some 90000) none [{ jobBlank with salary := "$80,000" }] = [] ∧
    SalaryFilter.filter (some 90000) none [{ jobBlank with salary := "N/A" }] =
      [{ jobBlank with salary := "N/A" }] := by
  refine ⟨?_, ?_, by decide, by decide⟩
  · intro mn mx jobs j hj hnone
    unfold SalaryFilter.filter
    split
    · exact hj
    · exact List.mem_filter.mpr ⟨hj, by simp [SalaryFilter.keep, hnone]⟩
  · intro m mx jobs j n hsome hlt hmem
    have hm : m ≠ 0 := by omega
    unfold SalaryFilter.filter at hmem
    have hguard : (!truthyNat (some m) && !truthyNat mx) = false := by
      simp [truthyNat, hm]
    rw [if_neg (by simp [hguard])] at hmem
    have hkeep := (List.mem_filter.mp hmem).2
    simp [SalaryFilter.keep, hsome, truthyNat, hm, hlt] at hkeep

/-- Witness for C5 at concrete inputs: an unparseable salary is kept and a
below-minimum salary is rejected. -/
theorem claim5_witness :
    ({ jobBlank with salary := "N/A" } : Job) ∈
      SalaryFilter.filter (some 90000) none [{ jobBlank with salary := "N/A" }] ∧
    ({ jobBlank with salary := "$80,000" } : Job) ∉
      SalaryFilter.filter (some 90000) none [{ jobBlank with salary := "$80,000" }] :=
  ⟨claim5_salary_inclusive_and_min.1 (some 90000) none _ _ (by decide) (by decide),
   claim5_salary_inclusive_and_min.2.1 90000 none _ _ 80000 (by decide) (by decide)⟩

/-- C6: DateFilter keeps every record whose posted_date fails all parsing
tiers, keeps a record with a parsed date exactly when its age is at most
max_age_hours, and concretely with a 48-hour limit drops "3 days ago",
keeps "today", and keeps "garbled text" (assuming the external absolute
parsers also fail on the garbled text). -/
theorem claim6_date_filter_inclusive :
    (∀ (absParse : String → Option Int) max_age now jobs (j : Job), j ∈ jobs →
      DateFilter.parsePostingDate absParse now j.posted_date = none →
      j ∈ DateFilter.filter absParse max_age now jobs) ∧
    (∀ (absParse : String → Option Int) max_age now jobs (j : Job) d, j ∈ jobs →
      DateFilter.parsePostingDate absParse now j.posted_date = some d →
      (j ∈ DateFilter.filter absParse max_age now jobs ↔ now - d ≤ max_age)) ∧
    (∀ (absParse : String → Option Int) (now : Int), absParse "garbled text" = none →
      DateFilter.filter absParse 48 now [{ jobBlank with posted_date := "3 days ago" }] = [] ∧
      DateFilter.filter absParse 48 now [{ jobBlank with posted_date := "today" }] =
        [{ jobBlank with posted_date := "today" }] ∧
      DateFilter.filter absParse 48 now [{ jobBlank with posted_date := "garbled text" }] =
        [{ jobBlank with posted_date := "garbled text" }]) := by
  refine ⟨?_, ?_, ?_⟩
  · intro absParse m now jobs j hj hnone
    exact List.mem_filter.mpr ⟨hj, by simp [DateFilter.keep, hnone]⟩
  · intro absParse m now jobs j d hj hsome
    constructor
    · intro hmem
      have hkeep := (List.mem_filter.mp hmem).2
      simpa [DateFilter.keep, hsome, DateFilter.isWithinTimeFilter] using hkeep
    · intro hage
      exact List.mem_filter.mpr
        ⟨hj, by simp [DateFilter.keep, hsome, DateFilter.isWithinTimeFilter, hage]⟩
  · intro absParse now habs
    have h3 : DateFilter.parsePostingDate absParse now "3 days ago" = some (now - 72) := rfl
    have ht : DateFilter.parsePostingDate absParse now "today" = some now := rfl
    have hg : DateFilter.parsePostingDate absParse now "garbled text" = none := by
      show absParse "garbled text" = none
      exact habs
    refine ⟨?_, ?_, ?_⟩
    · simp [DateFilter.filter, List.filter, DateFilter.keep, h3, DateFilter.isWithinTimeFilter]
    · simp [DateFilter.filter, List.filter, DateFilter.keep, ht, DateFilter.isWithinTimeFilter]
    · simp [DateFilter.filter, List.filter, DateFilter.keep, hg]

/-- Witness for C6 at a concrete input: an unparseable date is kept, and
membership for a record posted now reduces to the age test. -/
theorem claim6_witness :
    ({ jobBlank with posted_date := "garbled text" } : Job) ∈
      DateFilter.filter (fun _ => none) 48 0 [{ jobBlank with posted_date := "garbled text" }] ∧
    (({ jobBlank with posted_date := "today" } : Job) ∈
      DateFilter.filter (fun _ => none) 48 0 [{ jobBlank with posted_date := "today" }] ↔
      (0 : Int) - 0 ≤ 48) :=
  ⟨claim6_date_filter_inclusive.1 (fun _ => none) 48 0 _ _ (by decide) (by decide),
   claim6_date_filter_inclusive.2.1 (fun _ => none) 48 0 _ _ 0 (by decide) (by decide)⟩

/-- C2 counterexample: DateFilter has no pass-through mode — with its
default configuration (max_age_hours = 72) it drops a record posted
"5 days ago", so not every stage with a default configuration returns its
input unchanged. -/
theorem claim2_counterexample :
    DateFilter.filter (fun _ => none) 72 0 [{ jobBlank with posted_date := "5 days ago" }] ≠
      [{ jobBlank with posted_date := "5 days ago" }] := by decide

/-- C2 amended: every stage whose governing criterion can be empty or None —
Experience, Company, Keyword, Salary, JobType, Location, and the Main
aggregate — passes its input through unchanged when unconfigured; DateFilter
(and DuplicateRemover) always apply their criterion and are excluded. -/
theorem claim2_amended_passthrough : ∀ jobs : List Job,
    ExperienceFilter.filter [] jobs = jobs ∧
    CompanyFilter.filter none [] jobs = jobs ∧
    KeywordFilter.filter [] [] jobs = jobs ∧
    SalaryFilter.filter none none jobs = jobs ∧
    JobTypeFilter.filter false false jobs = jobs ∧
    LocationFilter.filter none [] true false jobs = jobs ∧
    (∀ (absParse : String → Option Int) (now : Int) (stats : MainStats),
      (MainJobFilter.filterWithStats emptyConfig absParse now jobs stats).1 = jobs) :=
  fun _ => ⟨rfl, rfl, rfl, rfl, rfl, rfl, fun _ _ _ => rfl⟩

/-- C8: an already-present experience_level field is authoritative (the
enrichment never changes it), and applying ExperienceFilter twice with the
same allowed set gives the same list as applying it once. -/
theorem claim8_classification_idempotent :
    (∀ (j : Job) (s : String), j.experience_level = some s → ExperienceFilter.enrich j = j) ∧
    (∀ allowed jobs, ExperienceFilter.filter allowed (ExperienceFilter.filter allowed jobs) =
      ExperienceFilter.filter allowed jobs) := by
  constructor
  · intro j s h
    simp [ExperienceFilter.enrich, h]
  · intro allowed jobs
    by_cases ha : allowed = []
    · simp [ExperienceFilter.filter, ha]
    · conv_lhs => rw [ExperienceFilter.filter, if_neg ha]
      have hmap : List.map ExperienceFilter.enrich (ExperienceFilter.filter allowed jobs) =
          ExperienceFilter.filter allowed jobs := by
        have hid : ∀ x ∈ ExperienceFilter.filter allowed jobs,
            ExperienceFilter.enrich x = id x := by
          intro x hx
          simp only [ExperienceFilter.filter, if_neg ha] at hx
          obtain ⟨r, hr, hxr⟩ := List.mem_map.mp (List.mem_of_mem_filter hx)
          show ExperienceFilter.enrich x = x
          rw [← hxr]
          exact enrich_enrich r
        rw [List.map_congr_left hid, List.map_id]
      rw [hmap]
      apply List.filter_eq_self.mpr
      intro a ha2
      simp only [ExperienceFilter.filter, if_neg ha] at ha2
      exact (List.mem_filter.mp ha2).2

/-- Witness for C8 at a concrete record: a pre-set experience_level survives
enrichment, and a concrete double application of the filter collapses. -/
theorem claim8_witness :
    ExperienceFilter.enrich { jobBlank with experience_level := some "senior" } =
      { jobBlank with experience_level := some "senior" } ∧
    ExperienceFilter.filter ["entry"]
        (ExperienceFilter.filter ["entry"] [{ jobBlank with title := "Junior Dev" }]) =
      ExperienceFilter.filter ["entry"] [{ jobBlank with title := "Junior Dev" }] :=
  ⟨claim8_classification_idempotent.1 _ "senior" rfl,
   claim8_classification_idempotent.2 ["entry"] [{ jobBlank with title := "Junior Dev" }]⟩

/-- C9: the Jaccard similarity is symmetric in its two records, is 1 when
both word sets are empty, and is 0 when exactly one of them is empty. -/
theorem claim9_similarity_symmetric_edges :
    (∀ a b : Job,
      DuplicateRemover.calculateSimilarity a b = DuplicateRemover.calculateSimilarity b a) ∧
    (∀ a b : Job, DuplicateRemover.getWords a = ∅ → DuplicateRemover.getWords b = ∅ →
      DuplicateRemover.calculateSimilarity a b = 1) ∧
    (∀ a b : Job, DuplicateRemover.getWords a = ∅ → DuplicateRemover.getWords b ≠ ∅ →
      DuplicateRemover.calculateSimilarity a b = 0) ∧
    (∀ a b : Job, DuplicateRemover.getWords a ≠ ∅ → DuplicateRemover.getWords b = ∅ →
      DuplicateRemover.calculateSimilarity a b = 0) := by
  refine ⟨?_, ?_, ?_, ?_⟩
  · intro a b
    unfold DuplicateRemover.calculateSimilarity
    by_cases h1 : DuplicateRemover.getWords a = ∅ <;>
      by_cases h2 : DuplicateRemover.getWords b = ∅ <;>
      simp [h1, h2, Finset.inter_comm, Finset.union_comm]
  · intro a b h1 h2
    simp [DuplicateRemover.calculateSimilarity, h1, h2]
  · intro a b h1 h2
    simp [DuplicateRemover.calculateSimilarity, h1, h2]
  · intro a b h1 h2
    simp [DuplicateRemover.calculateSimilarity, h1, h2]

/-- Witness for C9 at concrete records: a blank record has an empty word
set, a titled record a non-empty one. -/
theorem claim9_witness :
    DuplicateRemover.calculateSimilarity jobBlank jobBlank = 1 ∧
    DuplicateRemover.calculateSimilarity jobBlank { jobBlank with title := "Dev" } = 0 ∧
    DuplicateRemover.calculateSimilarity { jobBlank with title := "Dev" } jobBlank = 0 :=
  ⟨claim9_similarity_symmetric_edges.2.1 jobBlank jobBlank (by decide) (by decide),
   claim9_similarity_symmetric_edges.2.2.1 jobBlank _ (by decide) (by decide),
   claim9_similarity_symmetric_edges.2.2.2 _ jobBlank (by decide) (by decide)⟩

/-! ## Deduplicator loop invariants -/

theorem filterAux_cons_seen (threshold : ℚ) (j : Job) (rest uniq : List Job)
    (seen : List String) (h : DuplicateRemover.createJobSignature j ∈ seen) :
    DuplicateRemover.filterAux threshold (j :: rest) uniq seen =
      DuplicateRemover.filterAux threshold rest uniq seen := by
  simp [DuplicateRemover.filterAux, h]

theorem filterAux_cons_dup (threshold : ℚ) (j : Job) (rest uniq : List Job)
    (seen : List String) (h : DuplicateRemover.createJobSignature j ∉ seen)
    (h2 : (uniq.any fun e =>
      decide (threshold ≤ DuplicateRemover.calculateSimilarity j e)) = true) :
    DuplicateRemover.filterAux threshold (j :: rest) uniq seen =
      DuplicateRemover.filterAux threshold rest uniq seen := by
  simp [DuplicateRemover.filterAux, h, h2]

theorem filterAux_cons_new (threshold : ℚ) (j : Job) (rest uniq : List Job)
    (seen : List String) (h : DuplicateRemover.createJobSignature j ∉ seen)
    (h2 : (uniq.any fun e =>
      decide (threshold ≤ DuplicateRemover.calculateSimilarity j e)) = false) :
    DuplicateRemover.filterAux threshold (j :: rest) uniq seen =
      DuplicateRemover.filterAux threshold rest (uniq ++ [j])
        (DuplicateRemover.createJobSignature j :: seen) := by
  simp [DuplicateRemover.filterAux, h, h2]

theorem filterAux_length (threshold : ℚ) (jobs : List Job) :
    ∀ uniq seen, (DuplicateRemover.filterAux threshold jobs uniq seen).length ≤
      uniq.length + jobs.length := by
  induction jobs with
  | nil => intro uniq seen; simp [DuplicateRemover.filterAux]
  | cons j rest ih =>
    intro uniq seen
    by_cases h1 : DuplicateRemover.createJobSignature j ∈ seen
    · rw [filterAux_cons_seen threshold j rest uniq seen h1]
      exact le_trans (ih uniq seen) (by simp [List.length_cons])
    · cases h2 : (uniq.any fun e =>
        decide (threshold ≤ DuplicateRemover.calculateSimilarity j e)) with
      | true =>
        rw [filterAux_cons_dup threshold j rest uniq seen h1 h2]
        exact le_trans (ih uniq seen) (by simp [List.length_cons])
      | false =>
        rw [filterAux_cons_new threshold j rest uniq seen h1 h2]
        have := ih (uniq ++ [j]) (DuplicateRemover.createJobSignature j :: seen)
        simp at this
        simp [List.length_cons]
        omega

theorem filterAux_mem (threshold : ℚ) (jobs : List Job) :
    ∀ uniq seen j, j ∈ DuplicateRemover.filterAux threshold jobs uniq seen →
      j ∈ uniq ∨ j ∈ jobs := by
  induction jobs with
  | nil => intro uniq seen j hj; simp [DuplicateRemover.filterAux] at hj; exact Or.inl hj
  | cons a rest ih =>
    intro uniq seen j hj
    by_cases h1 : DuplicateRemover.createJobSignature a ∈ seen
    · rw [filterAux_cons_seen threshold a rest uniq seen h1] at hj
      rcases ih uniq seen j hj with h | h
      · exact Or.inl h
      · exact Or.inr (List.mem_cons_of_mem a h)
    · cases h2 : (uniq.any fun e =>
        decide (threshold ≤ DuplicateRemover.calculateSimilarity a e)) with
      | true =>
        rw [filterAux_cons_dup threshold a rest uniq seen h1 h2] at hj
        rcases ih uniq seen j hj with h | h
        · exact Or.inl h
        · exact Or.inr (List.mem_cons_of_mem a h)
      | false =>
        rw [filterAux_cons_new threshold a rest uniq seen h1 h2] at hj
        rcases ih (uniq ++ [a]) _ j hj with h | h
        · rcases List.mem_append.mp h with h3 | h3
          · exact Or.inl h3
          · simp at h3
            exact Or.inr (by simp [h3])
        · exact Or.inr (List.mem_cons_of_mem a h)

theorem dedup_length_le (threshold : ℚ) (jobs : List Job) :
    (DuplicateRemover.filter threshold jobs).length ≤ jobs.length := by
  unfold DuplicateRemover.filter
  split
  · exact le_rfl
  · simpa using filterAux_length threshold jobs [] []

theorem dedup_subset (threshold : ℚ) (jobs : List Job) :
    ∀ j ∈ DuplicateRemover.filter threshold jobs, j ∈ jobs := by
  intro j hj
  unfold DuplicateRemover.filter at hj
  split at hj
  · exact hj
  · rcases filterAux_mem threshold jobs [] [] j hj with h | h
    · simp at h
    · exact h

theorem calculateSimilarity_comm (a b : Job) :
    DuplicateRemover.calculateSimilarity a b = DuplicateRemover.calculateSimilarity b a := by
  unfold DuplicateRemover.calculateSimilarity
  by_cases h1 : DuplicateRemover.getWords a = ∅ <;>
    by_cases h2 : DuplicateRemover.getWords b = ∅ <;>
    simp [h1, h2, Finset.inter_comm, Finset.union_comm]

theorem filterAux_sim_pairwise (threshold : ℚ) (jobs : List Job) :
    ∀ uniq seen, uniq.Pairwise (fun a b =>
        DuplicateRemover.calculateSimilarity a b < threshold) →
      (DuplicateRemover.filterAux threshold jobs uniq seen).Pairwise (fun a b =>
        DuplicateRemover.calculateSimilarity a b < threshold) := by
  induction jobs with
  | nil => intro uniq seen h; simpa [DuplicateRemover.filterAux] using h
  | cons j rest ih =>
    intro uniq seen h
    by_cases h1 : DuplicateRemover.createJobSignature j ∈ seen
    · rw [filterAux_cons_seen threshold j rest uniq seen h1]
      exact ih uniq seen h
    · cases h2 : (uniq.any fun e =>
        decide (threshold ≤ DuplicateRemover.calculateSimilarity j e)) with
      | true =>
        rw [filterAux_cons_dup threshold j rest uniq seen h1 h2]
        exact ih uniq seen h
      | false =>
        rw [filterAux_cons_new threshold j rest uniq seen h1 h2]
        apply ih
        rw [List.pairwise_append]
        refine ⟨h, List.pairwise_singleton _ _, ?_⟩
        intro a ha b hb
        simp only [List.mem_singleton] at hb
        subst hb
        have h3 : ¬ threshold ≤ DuplicateRemover.calculateSimilarity b a := by
          simpa using (List.any_eq_false.mp h2) a ha
        rw [calculateSimilarity_comm]
        exact lt_of_not_le h3

theorem filterAux_sig_pairwise (threshold : ℚ) (jobs : List Job) :
    ∀ uniq seen,
      uniq.Pairwise (fun a b =>
        DuplicateRemover.createJobSignature a ≠ DuplicateRemover.createJobSignature b) →
      (∀ e ∈ uniq, DuplicateRemover.createJobSignature e ∈ seen) →
      (DuplicateRemover.filterAux threshold jobs uniq seen).Pairwise (fun a b =>
        DuplicateRemover.createJobSignature a ≠ DuplicateRemover.createJobSignature b) := by
  induction jobs with
  | nil => intro uniq seen h _; simpa [DuplicateRemover.filterAux] using h
  | cons j rest ih =>
    intro uniq seen h hseen
    by_cases h1 : DuplicateRemover.createJobSignature j ∈ seen
    · rw [filterAux_cons_seen threshold j rest uniq seen h1]
      exact ih uniq seen h hseen
    · cases h2 : (uniq.any fun e =>
        decide (threshold ≤ DuplicateRemover.calculateSimilarity j e)) with
      | true =>
        rw [filterAux_cons_dup threshold j rest uniq seen h1 h2]
        exact ih uniq seen h hseen
      | false =>
        rw [filterAux_cons_new threshold j rest uniq seen h1 h2]
        apply ih
        · rw [List.pairwise_append]
          refine ⟨h, List.pairwise_singleton _ _, ?_⟩
          intro a ha b hb
          simp only [List.mem_singleton] at hb
          subst hb
          intro heq
          exact h1 (heq ▸ hseen a ha)
        · intro e he
          rcases List.mem_append.mp he with h3 | h3
          · exact List.mem_cons_of_mem _ (hseen e h3)
          · simp only [List.mem_singleton] at h3
            subst h3
            exact List.mem_cons_self _ _

theorem dedup_sim_pairwise (threshold : ℚ) (jobs : List Job) :
    (DuplicateRemover.filter threshold jobs).Pairwise (fun x y =>
      DuplicateRemover.calculateSimilarity x y < threshold) := by
  by_cases hj : jobs = []
  · simp [DuplicateRemover.filter, hj]
  · simp only [DuplicateRemover.filter, if_neg hj]
    exact filterAux_sim_pairwise threshold jobs [] [] List.Pairwise.nil

theorem dedup_sig_pairwise (threshold : ℚ) (jobs : List Job) :
    (DuplicateRemover.filter threshold jobs).Pairwise (fun x y =>
      DuplicateRemover.createJobSignature x ≠ DuplicateRemover.createJobSignature y) := by
  by_cases hj : jobs = []
  · simp [DuplicateRemover.filter, hj]
  · simp only [DuplicateRemover.filter, if_neg hj]
    exact filterAux_sig_pairwise threshold jobs [] [] List.Pairwise.nil (by simp)

theorem pairwise_sig_countP_le (a b : Job)
    (hab : DuplicateRemover.createJobSignature a = DuplicateRemover.createJobSignature b) :
    ∀ l : List Job, l.Pairwise (fun x y =>
      DuplicateRemover.createJobSignature x ≠ DuplicateRemover.createJobSignature y) →
    l.countP (fun x => decide (x = a ∨ x = b)) ≤ 1 := by
  intro l
  induction l with
  | nil => intro _; simp
  | cons x xs ih =>
    intro hl
    rcases List.pairwise_cons.mp hl with ⟨hx, hxs⟩
    rw [List.countP_cons]
    by_cases hpx : x = a ∨ x = b
    · have hrest : xs.countP (fun y => decide (y = a ∨ y = b)) = 0 := by
        rw [List.countP_eq_zero]
        intro y hy
        simp only [decide_eq_true_eq]
        intro hpy
        have hsx : DuplicateRemover.createJobSignature x =
            DuplicateRemover.createJobSignature a := by
          rcases hpx with h | h
          · rw [h]
          · rw [h, hab]
        have hsy : DuplicateRemover.createJobSignature y =
            DuplicateRemover.createJobSignature a := by
          rcases hpy with h | h
          · rw [h]
          · rw [h, hab]
        exact hx y hy (hsx.trans hsy.symm)
      rw [hrest]
      simp [hpx]
    · simpa [hpx] using ih hxs

/-- C10: any two distinct survivors of DuplicateRemover.filter have Jaccard
similarity strictly below the threshold, in both argument orders — the
output is pairwise non-duplicate, not merely free of adjacent duplicates. -/
theorem claim10_output_pairwise_nonduplicate (threshold : ℚ) (jobs : List Job) :
    (DuplicateRemover.filter threshold jobs).Pairwise (fun x y =>
      DuplicateRemover.calculateSimilarity x y < threshold ∧
      DuplicateRemover.calculateSimilarity y x < threshold) := by
  apply List.Pairwise.imp _ (dedup_sim_pairwise threshold jobs)
  intro x y h
  exact ⟨h, by rwa [calculateSimilarity_comm]⟩

/-- C3: two records of the input whose normalized title, company and
location all coincide collapse — for every similarity threshold, the output
of DuplicateRemover.filter contains at most one occurrence of either. -/
theorem claim3_exact_duplicates_collapse (threshold : ℚ) (jobs : List Job) (a b : Job)
    (ha : a ∈ jobs) (hb : b ∈ jobs)
    (ht : DuplicateRemover.normalizeText a.title = DuplicateRemover.normalizeText b.title)
    (hc : DuplicateRemover.normalizeText a.company = DuplicateRemover.normalizeText b.company)
    (hl : DuplicateRemover.normalizeText a.location =
      DuplicateRemover.normalizeText b.location) :
    (DuplicateRemover.filter threshold jobs).countP (fun x => decide (x = a ∨ x = b)) ≤ 1 := by
  have hab : DuplicateRemover.createJobSignature a =
      DuplicateRemover.createJobSignature b := by
    unfold DuplicateRemover.createJobSignature
    rw [ht, hc, hl]
  exact pairwise_sig_countP_le a b hab _ (dedup_sig_pairwise threshold jobs)

/-- Witness for C3 at a concrete input: a literal duplicate pair survives at
most once. -/
theorem claim3_witness :
    (DuplicateRemover.filter (9/10) [{ jobBlank with title := "Dev" },
        { jobBlank with title := "Dev" }]).countP
      (fun x => decide (x = { jobBlank with title := "Dev" } ∨
        x = ({ jobBlank with title := "Dev" } : Job))) ≤ 1 :=
  claim3_exact_duplicates_collapse (9/10) _ _ _ (by decide) (by decide) rfl rfl rfl

/-! ## Per-stage subset lemmas -/

theorem expFilter_length (lv : List String) (jobs : List Job) :
    (ExperienceFilter.filter lv jobs).length ≤ jobs.length := by
  by_cases h : lv = []
  · simp [ExperienceFilter.filter, h]
  · simp only [ExperienceFilter.filter, if_neg h]
    calc (List.filter _ (jobs.map ExperienceFilter.enrich)).length
        ≤ (jobs.map ExperienceFilter.enrich).length := List.length_filter_le _ _
      _ = jobs.length := List.length_map _ _

theorem expFilter_mem (lv : List String) (jobs : List Job) :
    ∀ j ∈ ExperienceFilter.filter lv jobs,
      ∃ r ∈ jobs, j = r ∨ j = ExperienceFilter.enrich r := by
  intro j hj
  by_cases h : lv = []
  · simp only [ExperienceFilter.filter, if_pos h] at hj
    exact ⟨j, hj, Or.inl rfl⟩
  · simp only [ExperienceFilter.filter, if_neg h] at hj
    obtain ⟨r, hr, hrj⟩ := List.mem_map.mp (List.mem_of_mem_filter hj)
    exact ⟨r, hr, Or.inr hrj.symm⟩

theorem companyFilter_length (inc : Option (List String)) (exc : List String)
    (jobs : List Job) : (CompanyFilter.filter inc exc jobs).length ≤ jobs.length := by
  unfold CompanyFilter.filter
  split
  · exact le_rfl
  · exact List.length_filter_le _ _

theorem companyFilter_mem (inc : Option (List String)) (exc : List String)
    (jobs : List Job) : ∀ j ∈ CompanyFilter.filter inc exc jobs, j ∈ jobs := by
  unfold CompanyFilter.filter
  split
  · exact fun j hj => hj
  · exact fun j hj => List.mem_of_mem_filter hj

theorem keywordFilter_length (req exc : List String) (jobs : List Job) :
    (KeywordFilter.filter req exc jobs).length ≤ jobs.length := by
  unfold KeywordFilter.filter
  split
  · exact le_rfl
  · exact List.length_filter_le _ _

theorem keywordFilter_mem (req exc : List String) (jobs : List Job) :
    ∀ j ∈ KeywordFilter.filter req exc jobs, j ∈ jobs := by
  unfold KeywordFilter.filter
  split
  · exact fun j hj => hj
  · exact fun j hj => List.mem_of_mem_filter hj

theorem salaryFilter_length (mn mx : Option Nat) (jobs : List Job) :
    (SalaryFilter.filter mn mx jobs).length ≤ jobs.length := by
  unfold SalaryFilter.filter
  split
  · exact le_rfl
  · exact List.length_filter_le _ _

theorem salaryFilter_mem (mn mx : Option Nat) (jobs : List Job) :
    ∀ j ∈ SalaryFilter.filter mn mx jobs, j ∈ jobs := by
  unfold SalaryFilter.filter
  split
  · exact fun j hj => hj
  · exact fun j hj => List.mem_of_mem_filter hj

theorem jobTypeFilter_length (ro fto : Bool) (jobs : List Job) :
    (JobTypeFilter.filter ro fto jobs).length ≤ jobs.length := by
  unfold JobTypeFilter.filter
  split
  · exact le_rfl
  · exact List.length_filter_le _ _

theorem jobTypeFilter_mem (ro fto : Bool) (jobs : List Job) :
    ∀ j ∈ JobTypeFilter.filter ro fto jobs, j ∈ jobs := by
  unfold JobTypeFilter.filter
  split
  · exact fun j hj => hj
  · exact fun j hj => List.mem_of_mem_filter hj

theorem dateFilter_length (absParse : String → Option Int) (mah now : Int)
    (jobs : List Job) : (DateFilter.filter absParse mah now jobs).length ≤ jobs.length :=
  List.length_filter_le _ _

theorem dateFilter_mem (absParse : String → Option Int) (mah now : Int)
    (jobs : List Job) : ∀ j ∈ DateFilter.filter absParse mah now jobs, j ∈ jobs :=
  fun _ hj => List.mem_of_mem_filter hj

theorem locationFilter_length (pref : Option (List String)) (exc : List String)
    (ar em : Bool) (jobs : List Job) :
    (LocationFilter.filter pref exc ar em jobs).length ≤ jobs.length := by
  unfold LocationFilter.filter
  split
  · exact le_rfl
  · exact List.length_filter_le _ _

theorem locationFilter_mem (pref : Option (List String)) (exc : List String)
    (ar em : Bool) (jobs : List Job) :
    ∀ j ∈ LocationFilter.filter pref exc ar em jobs, j ∈ jobs := by
  unfold LocationFilter.filter
  split
  · exact fun j hj => hj
  · exact fun j hj => List.mem_of_mem_filter hj

/-! ## Pipeline stage lemmas -/

theorem expStage_length (cfg : FilterConfig) (l : List Job) :
    (MainJobFilter.expStage cfg l).length ≤ l.length := by
  unfold MainJobFilter.expStage
  split
  · exact expFilter_length _ _
  · exact le_rfl

theorem expStage_mem (cfg : FilterConfig) (l : List Job) :
    ∀ j ∈ MainJobFilter.expStage cfg l, ∃ r ∈ l, j = r ∨ j = ExperienceFilter.enrich r := by
  unfold MainJobFilter.expStage
  split
  · exact expFilter_mem _ _
  · exact fun j hj => ⟨j, hj, Or.inl rfl⟩

theorem companyStage_length (cfg : FilterConfig) (l : List Job) :
    (MainJobFilter.companyStage cfg l).length ≤ l.length := by
  unfold MainJobFilter.companyStage
  split
  · exact companyFilter_length _ _ _
  · exact le_rfl

theorem companyStage_mem (cfg : FilterConfig) (l : List Job) :
    ∀ j ∈ MainJobFilter.companyStage cfg l, j ∈ l := by
  unfold MainJobFilter.companyStage
  split
  · exact companyFilter_mem _ _ _
  · exact fun _ hj => hj

theorem keywordStage_length (cfg : FilterConfig) (l : List Job) :
    (MainJobFilter.keywordStage cfg l).length ≤ l.length := by
  unfold MainJobFilter.keywordStage
  split
  · exact keywordFilter_length _ _ _
  · exact le_rfl

theorem keywordStage_mem (cfg : FilterConfig) (l : List Job) :
    ∀ j ∈ MainJobFilter.keywordStage cfg l, j ∈ l := by
  unfold MainJobFilter.keywordStage
  split
  · exact keywordFilter_mem _ _ _
  · exact fun _ hj => hj

theorem dateStage_length (cfg : FilterConfig) (absParse : String → Option Int) (now : Int)
    (l : List Job) : (MainJobFilter.dateStage cfg absParse now l).length ≤ l.length := by
  unfold MainJobFilter.dateStage
  split
  · exact dateFilter_length _ _ _ _
  · exact le_rfl

theorem dateStage_mem (cfg : FilterConfig) (absParse : String → Option Int) (now : Int)
    (l : List Job) : ∀ j ∈ MainJobFilter.dateStage cfg absParse now l, j ∈ l := by
  unfold MainJobFilter.dateStage
  split
  · exact dateFilter_mem _ _ _ _
  · exact fun _ hj => hj

theorem salaryStage_length (cfg : FilterConfig) (l : List Job) :
    (MainJobFilter.salaryStage cfg l).length ≤ l.length := by
  unfold MainJobFilter.salaryStage
  split
  · exact salaryFilter_length _ _ _
  · exact le_rfl

theorem salaryStage_mem (cfg : FilterConfig) (l : List Job) :
    ∀ j ∈ MainJobFilter.salaryStage cfg l, j ∈ l := by
  unfold MainJobFilter.salaryStage
  split
  · exact salaryFilter_mem _ _ _
  · exact fun _ hj => hj

theorem jobTypeStage_length (cfg : FilterConfig) (l : List Job) :
    (MainJobFilter.jobTypeStage cfg l).length ≤ l.length := by
  unfold MainJobFilter.jobTypeStage
  split
  · exact jobTypeFilter_length _ _ _
  · exact le_rfl

theorem jobTypeStage_mem (cfg : FilterConfig) (l : List Job) :
    ∀ j ∈ MainJobFilter.jobTypeStage cfg l, j ∈ l := by
  unfold MainJobFilter.jobTypeStage
  split
  · exact jobTypeFilter_mem _ _ _
  · exact fun _ hj => hj

theorem main_fst (cfg : FilterConfig) (absParse : String → Option Int) (now : Int)
    (jobs : List Job) (s : MainStats) :
    (MainJobFilter.filterWithStats cfg absParse now jobs s).1 =
      MainJobFilter.jobTypeStage cfg (MainJobFilter.salaryStage cfg
        (MainJobFilter.dateStage cfg absParse now (MainJobFilter.keywordStage cfg
          (MainJobFilter.companyStage cfg (MainJobFilter.expStage cfg jobs))))) := rfl

theorem main_length (cfg : FilterConfig) (absParse : String → Option Int) (now : Int)
    (jobs : List Job) (s : MainStats) :
    (MainJobFilter.filterWithStats cfg absParse now jobs s).1.length ≤ jobs.length := by
  rw [main_fst]
  calc (MainJobFilter.jobTypeStage cfg _).length
      ≤ _ := jobTypeStage_length _ _
    _ ≤ _ := salaryStage_length _ _
    _ ≤ _ := dateStage_length _ _ _ _
    _ ≤ _ := keywordStage_length _ _
    _ ≤ _ := companyStage_length _ _
    _ ≤ jobs.length := expStage_length _ _

theorem main_mem (cfg : FilterConfig) (absParse : String → Option Int) (now : Int)
    (jobs : List Job) (s : MainStats) :
    ∀ j ∈ (MainJobFilter.filterWithStats cfg absParse now jobs s).1,
      ∃ r ∈ jobs, j = r ∨ j = ExperienceFilter.enrich r := by
  intro j hj
  rw [main_fst] at hj
  exact expStage_mem cfg jobs j
    (companyStage_mem cfg _ j
      (keywordStage_mem cfg _ j
        (dateStage_mem cfg absParse now _ j
          (salaryStage_mem cfg _ j
            (jobTypeStage_mem cfg _ j hj)))))

/-- C1: every stage shrinks or preserves its input length and fabricates no
record — each output record is an input record, except in the experience
stage (and the aggregate that contains it), where an output record may
instead be the in-place-enriched version of an input record. -/
theorem claim1_stage_subset_no_fabrication :
    (∀ (threshold : ℚ) (jobs : List Job),
      (DuplicateRemover.filter threshold jobs).length ≤ jobs.length ∧
      ∀ j ∈ DuplicateRemover.filter threshold jobs, j ∈ jobs) ∧
    (∀ (lv : List String) (jobs : List Job),
      (ExperienceFilter.filter lv jobs).length ≤ jobs.length ∧
      ∀ j ∈ ExperienceFilter.filter lv jobs,
        ∃ r ∈ jobs, j = r ∨ j = ExperienceFilter.enrich r) ∧
    (∀ (inc : Option (List String)) (exc : List String) (jobs : List Job),
      (CompanyFilter.filter inc exc jobs).length ≤ jobs.length ∧
      ∀ j ∈ CompanyFilter.filter inc exc jobs, j ∈ jobs) ∧
    (∀ (req exc : List String) (jobs : List Job),
      (KeywordFilter.filter req exc jobs).length ≤ jobs.length ∧
      ∀ j ∈ KeywordFilter.filter req exc jobs, j ∈ jobs) ∧
    (∀ (mn mx : Option Nat) (jobs : List Job),
      (SalaryFilter.filter mn mx jobs).length ≤ jobs.length ∧
      ∀ j ∈ SalaryFilter.filter mn mx jobs, j ∈ jobs) ∧
    (∀ (ro fto : Bool) (jobs : List Job),
      (JobTypeFilter.filter ro fto jobs).length ≤ jobs.length ∧
      ∀ j ∈ JobTypeFilter.filter ro fto jobs, j ∈ jobs) ∧
    (∀ (absParse : String → Option Int) (mah now : Int) (jobs : List Job),
      (DateFilter.filter absParse mah now jobs).length ≤ jobs.length ∧
      ∀ j ∈ DateFilter.filter absParse mah now jobs, j ∈ jobs) ∧
    (∀ (pref : Option (List String)) (exc : List String) (ar em : Bool) (jobs : List Job),
      (LocationFilter.filter pref exc ar em jobs).length ≤ jobs.length ∧
      ∀ j ∈ LocationFilter.filter pref exc ar em jobs, j ∈ jobs) ∧
    (∀ (cfg : FilterConfig) (absParse : String → Option Int) (now : Int)
        (jobs : List Job) (stats : MainStats),
      (MainJobFilter.filterWithStats cfg absParse now jobs stats).1.length ≤ jobs.length ∧
      ∀ j ∈ (MainJobFilter.filterWithStats cfg absParse now jobs stats).1,
        ∃ r ∈ jobs, j = r ∨ j = ExperienceFilter.enrich r) := by
  refine ⟨?_, ?_, ?_, ?_, ?_, ?_, ?_, ?_, ?_⟩
  · exact fun θ jobs => ⟨dedup_length_le θ jobs, dedup_subset θ jobs⟩
  · exact fun lv jobs => ⟨expFilter_length lv jobs, expFilter_mem lv jobs⟩
  · exact fun inc exc jobs => ⟨companyFilter_length inc exc jobs, companyFilter_mem inc exc jobs⟩
  · exact fun req exc jobs => ⟨keywordFilter_length req exc jobs, keywordFilter_mem req exc jobs⟩
  · exact fun mn mx jobs => ⟨salaryFilter_length mn mx jobs, salaryFilter_mem mn mx jobs⟩
  · exact fun ro fto jobs => ⟨jobTypeFilter_length ro fto jobs, jobTypeFilter_mem ro fto jobs⟩
  · exact fun a mah now jobs => ⟨dateFilter_length a mah now jobs, dateFilter_mem a mah now jobs⟩
  · exact fun p e ar em jobs =>
      ⟨locationFilter_length p e ar em jobs, locationFilter_mem p e ar em jobs⟩
  · exact fun cfg a now jobs s => ⟨main_length cfg a now jobs s, main_mem cfg a now jobs s⟩

/-- Witness for C1 at a concrete input: the survivor of a two-record dedup
is one of the inputs, and a record surviving the aggregate filter traces
back to an input record. -/
theorem claim1_witness :
    ({ jobBlank with title := "Dev" } : Job) ∈
      [{ jobBlank with title := "Dev" }, { jobBlank with title := "Dev" }] ∧
    ∃ r ∈ [({ jobBlank with title := "Dev" } : Job)],
      ({ jobBlank with title := "Dev" } : Job) = r ∨
      ({ jobBlank with title := "Dev" } : Job) = ExperienceFilter.enrich r :=
  ⟨(claim1_stage_subset_no_fabrication.1 (9/10)
      [{ jobBlank with title := "Dev" }, { jobBlank with title := "Dev" }]).2
      { jobBlank with title := "Dev" } (by decide),
   (claim1_stage_subset_no_fabrication.2.2.2.2.2.2.2.2 emptyConfig (fun _ => none) 0
      [{ jobBlank with title := "Dev" }] initStats).2
      { jobBlank with title := "Dev" } (by decide)⟩

/-- C7 counterexample: `MainJobFilter.filter` does not reset the stats at
the start of a call. A first call through `filter_jobs` with an experience
criterion sets `after_experience_filter` to 1; a second call on the same
instance with an empty configuration (and empty input) leaves that counter
at 1, although the same call starting from fresh stats leaves it at 0 — the
counter still holds the previous call's value. -/
theorem claim7_counterexample :
    (MainJobFilter.filterWithStats emptyConfig (fun _ => none) 0 []
        (MainJobFilter.filterWithStats { emptyConfig with experience_levels := ["senior"] }
          (fun _ => none) 0 [{ jobBlank with title := "Senior Dev" }]
          initStats).2).2.after_experience_filter = 1 ∧
    (MainJobFilter.filterWithStats emptyConfig (fun _ => none) 0 []
        initStats).2.after_experience_filter = 0 :=
  ⟨by decide, by decide⟩

/-- C7 amended: a `filter` call always overwrites `original_count` and
`final_count`, overwrites a stage counter only when the current
configuration exercises that stage, and leaves every other counter —
including `after_location_filter`, which no stage ever writes — at the value
it had before the call; nothing is reset at the start of a call. -/
theorem claim7_amended_stats_no_reset :
    ∀ (cfg : FilterConfig) (absParse : String → Option Int) (now : Int)
      (jobs : List Job) (s : MainStats),
      (MainJobFilter.filterWithStats cfg absParse now jobs s).2.original_count =
        jobs.length ∧
      (MainJobFilter.filterWithStats cfg absParse now jobs s).2.final_count =
        (MainJobFilter.filterWithStats cfg absParse now jobs s).1.length ∧
      (MainJobFilter.filterWithStats cfg absParse now jobs s).2.after_location_filter =
        s.after_location_filter ∧
      (cfg.experience_levels ≠ [] →
        (MainJobFilter.filterWithStats cfg absParse now jobs s).2.after_experience_filter =
          (ExperienceFilter.filter cfg.experience_levels jobs).length) ∧
      (cfg.experience_levels = [] →
        (MainJobFilter.filterWithStats cfg absParse now jobs s).2.after_experience_filter =
          s.after_experience_filter) ∧
      (cfg.include_companies = [] → cfg.exclude_companies = [] →
        (MainJobFilter.filterWithStats cfg absParse now jobs s).2.after_company_filter =
          s.after_company_filter) ∧
      (cfg.keywords = [] → cfg.exclude_keywords = [] →
        (MainJobFilter.filterWithStats cfg absParse now jobs s).2.after_keyword_filter =
          s.after_keyword_filter) ∧
      (cfg.max_age_days = 0 →
        (MainJobFilter.filterWithStats cfg absParse now jobs s).2.after_date_filter =
          s.after_date_filter) ∧
      (truthyNat cfg.min_salary = false → truthyNat cfg.max_salary = false →
        (MainJobFilter.filterWithStats cfg absParse now jobs s).2.after_salary_filter =
          s.after_salary_filter) := by
  intro cfg absParse now jobs s
  refine ⟨?_, ?_, ?_, ?_, ?_, ?_, ?_, ?_, ?_⟩
  · simp [MainJobFilter.filterWithStats, apply_ite MainStats.original_count]
  · simp [MainJobFilter.filterWithStats]
  · simp [MainJobFilter.filterWithStats, apply_ite MainStats.after_location_filter]
  · intro h
    simp [MainJobFilter.filterWithStats, apply_ite MainStats.after_experience_filter,
      MainJobFilter.expStage, h]
  · intro h
    simp [MainJobFilter.filterWithStats, apply_ite MainStats.after_experience_filter, h]
  · intro h1 h2
    simp [MainJobFilter.filterWithStats, apply_ite MainStats.after_company_filter, h1, h2]
  · intro h1 h2
    simp [MainJobFilter.filterWithStats, apply_ite MainStats.after_keyword_filter, h1, h2]
  · intro h
    simp [MainJobFilter.filterWithStats, apply_ite MainStats.after_date_filter, h]
  · intro h1 h2
    simp [MainJobFilter.filterWithStats, apply_ite MainStats.after_salary_filter, h1, h2]

/-- Witness for C7 at a concrete call: the always-overwritten and
never-overwritten counters of one empty-configuration call. -/
theorem claim7_witness :
    (MainJobFilter.filterWithStats emptyConfig (fun _ => none) 7
        [{ jobBlank with title := "Dev" }] initStats).2.original_count = 1 ∧
    (MainJobFilter.filterWithStats emptyConfig (fun _ => none) 7
        [{ jobBlank with title := "Dev" }] initStats).2.after_experience_filter =
      initStats.after_experience_filter :=
  ⟨(claim7_amended_stats_no_reset emptyConfig (fun _ => none) 7
      [{ jobBlank with title := "Dev" }] initStats).1,
   (claim7_amended_stats_no_reset emptyConfig (fun _ => none) 7
      [{ jobBlank with title := "Dev" }] initStats).2.2.2.2.1 rfl⟩
